import Mathlib

/-!
Verification of the `fastgox/utils` ORM data-access core (Go) against its
natural-language specification, via a shallow embedding in Lean 4.

Go values passed as `interface{}` arguments are modelled by the inductive
type `GoValue`; Go strings are Lean `String`s; Go slices are Lean lists
(a `nil` Go slice inside a non-nil `interface{}` is `GoValue.vlist []`).
Each Lean definition mirrors one Go function of the repository, keeping
the source's name where Lean's grammar allows it.
-/

namespace OrmSpec

/-- A dynamically typed Go value (`interface{}`) as stored in query-builder
argument lists: integers, strings, booleans, and slices (`[]interface{}`). -/
inductive GoValue where
  | vint : Int → GoValue
  | vstr : String → GoValue
  | vbool : Bool → GoValue
  | vlist : List GoValue → GoValue

/-- Number of positional placeholder characters `?` in a string.  This is the
measure the placeholder/argument alignment invariant speaks about. -/
def qCount (s : String) : Nat := s.data.count '?'

/-- Sum of placeholder counts over a list of SQL fragments. -/
def qCounts (l : List String) : Nat := (l.map qCount).sum

/-- `strings.Join(parts, sep)` from the Go standard library. -/
def goJoin (sep : String) : List String → String
  | [] => ""
  | [p] => p
  | p :: ps => p ++ sep ++ goJoin sep ps

theorem qCount_append (a b : String) : qCount (a ++ b) = qCount a + qCount b := by
  simp [qCount, String.data_append, List.count_append]

theorem qCounts_append (l₁ l₂ : List String) :
    qCounts (l₁ ++ l₂) = qCounts l₁ + qCounts l₂ := by
  simp [qCounts]

theorem qCount_goJoin (sep : String) (hsep : qCount sep = 0) (l : List String) :
    qCount (goJoin sep l) = qCounts l := by
  induction l with
  | nil => simp [goJoin, qCount, qCounts]
  | cons p ps ih =>
    cases ps with
    | nil => simp [goJoin, qCounts]
    | cons q qs =>
      simp only [goJoin] at ih ⊢
      simp [qCount_append, qCounts, hsep] at ih ⊢
      omega

/-- `QueryCondition` from `types.go`: a single WHERE-chain entry.  `Value` is
the Go `interface{}` field (`none` models a nil interface), `Values` the
`[]interface{}` field. -/
structure QueryCondition where
  Column : String
  Operator : String
  Value : Option GoValue
  Values : List GoValue
  Logic : String

/-- `JoinClause` from `types.go` (the Go field `Type` is spelled `Ty` here
because `Type` is reserved in Lean). -/
structure JoinClause where
  Ty : String
  Table : String
  Condition : String

/-- `OrderClause` from `types.go`. -/
structure OrderClause where
  Column : String
  Direction : String

/-- `HavingClause` from `types.go`. -/
structure HavingClause where
  Condition : String
  Args : List GoValue

/-- The `queryBuilder` struct from the query-builder source file (the `orm`
and `tx` handles carry no information relevant to SQL generation and are
omitted; every other field is carried verbatim). -/
structure queryBuilder where
  tableName : String
  selectCols : List String
  conditions : List QueryCondition
  joins : List JoinClause
  orders : List OrderClause
  groups : List String
  havings : List HavingClause
  limitNum : Int
  offsetNum : Int

/-- `NewQueryBuilder`: all slice fields start empty, numeric fields zero. -/
def NewQueryBuilder (tableName : String) : queryBuilder :=
  ⟨tableName, [], [], [], [], [], [], 0, 0⟩

namespace queryBuilder

/-- `Select` replaces the projected column list. -/
def Select (qb : queryBuilder) (columns : List String) : queryBuilder :=
  { qb with selectCols := columns }

/-- `From` replaces the table name. -/
def From (qb : queryBuilder) (table : String) : queryBuilder :=
  { qb with tableName := table }

/-- `Where`: stores the raw condition in `Column`, operator `"="`, and the
variadic argument slice itself in `Value` (a non-nil interface even when the
slice is empty), connector `"AND"`. -/
def Where (qb : queryBuilder) (condition : String) (args : List GoValue) : queryBuilder :=
  { qb with conditions := qb.conditions ++
      [⟨condition, "=", some (GoValue.vlist args), [], "AND"⟩] }

/-- `WhereIn`: operator `"IN"`, values in `Values`, nil `Value`. -/
def WhereIn (qb : queryBuilder) (column : String) (values : List GoValue) : queryBuilder :=
  { qb with conditions := qb.conditions ++ [⟨column, "IN", none, values, "AND"⟩] }

/-- `WhereNotIn`: operator `"NOT IN"`. -/
def WhereNotIn (qb : queryBuilder) (column : String) (values : List GoValue) : queryBuilder :=
  { qb with conditions := qb.conditions ++ [⟨column, "NOT IN", none, values, "AND"⟩] }

/-- `WhereBetween`: operator `"BETWEEN"`, `Values = [start, stop]`. -/
def WhereBetween (qb : queryBuilder) (column : String) (start stop : GoValue) : queryBuilder :=
  { qb with conditions := qb.conditions ++ [⟨column, "BETWEEN", none, [start, stop], "AND"⟩] }

/-- `WhereNull`: operator `"IS NULL"`, no values. -/
def WhereNull (qb : queryBuilder) (column : String) : queryBuilder :=
  { qb with conditions := qb.conditions ++ [⟨column, "IS NULL", none, [], "AND"⟩] }

/-- `WhereNotNull`: operator `"IS NOT NULL"`, no values. -/
def WhereNotNull (qb : queryBuilder) (column : String) : queryBuilder :=
  { qb with conditions := qb.conditions ++ [⟨column, "IS NOT NULL", none, [], "AND"⟩] }

/-- The `dir` local of `OrderBy`: `"ASC"` unless a first variadic direction
argument is given, which is upper-cased. -/
def orderDirection : List String → String
  | [] => "ASC"
  | d :: _ => d.toUpper

/-- `OrderBy`: direction defaults to `"ASC"`; an explicit first variadic
argument is upper-cased. -/
def OrderBy (qb : queryBuilder) (column : String) (direction : List String) : queryBuilder :=
  { qb with orders := qb.orders ++ [⟨column, orderDirection direction⟩] }

/-- `GroupBy` appends the given columns. -/
def GroupBy (qb : queryBuilder) (columns : List String) : queryBuilder :=
  { qb with groups := qb.groups ++ columns }

/-- `Having` appends a raw HAVING condition with its arguments. -/
def Having (qb : queryBuilder) (condition : String) (args : List GoValue) : queryBuilder :=
  { qb with havings := qb.havings ++ [⟨condition, args⟩] }

/-- `Limit` sets the LIMIT amount. -/
def Limit (qb : queryBuilder) (limit : Int) : queryBuilder :=
  { qb with limitNum := limit }

/-- `Offset` sets the OFFSET amount. -/
def Offset (qb : queryBuilder) (offset : Int) : queryBuilder :=
  { qb with offsetNum := offset }

/-- `Join` (INNER). -/
def Join (qb : queryBuilder) (table condition : String) : queryBuilder :=
  { qb with joins := qb.joins ++ [⟨"INNER", table, condition⟩] }

/-- `LeftJoin`. -/
def LeftJoin (qb : queryBuilder) (table condition : String) : queryBuilder :=
  { qb with joins := qb.joins ++ [⟨"LEFT", table, condition⟩] }

/-- `RightJoin`. -/
def RightJoin (qb : queryBuilder) (table condition : String) : queryBuilder :=
  { qb with joins := qb.joins ++ [⟨"RIGHT", table, condition⟩] }

/-- `InnerJoin`. -/
def InnerJoin (qb : queryBuilder) (table condition : String) : queryBuilder :=
  { qb with joins := qb.joins ++ [⟨"INNER", table, condition⟩] }

end queryBuilder

/-- The `switch condition.Operator` body of `buildWhereClause`, for one
condition: the SQL fragments (zero or one) it appends to `parts` and the
values it appends to `args`.  The default branch reproduces the source's
`condition.Value != nil` guard and its `[]interface{}` type assertion:
a non-empty asserted slice emits the raw condition verbatim and splices the
slice; anything else emits `Column Operator ?` and appends `Value` itself. -/
def condParts (c : QueryCondition) : List String × List GoValue :=
  if c.Operator = "IN" ∨ c.Operator = "NOT IN" then
    ([c.Column ++ " " ++ c.Operator ++ " (" ++
        goJoin ", " (List.replicate c.Values.length "?") ++ ")"], c.Values)
  else if c.Operator = "BETWEEN" then
    ([c.Column ++ " BETWEEN ? AND ?"], c.Values)
  else if c.Operator = "IS NULL" ∨ c.Operator = "IS NOT NULL" then
    ([c.Column ++ " " ++ c.Operator], [])
  else
    match c.Value with
    | none => ([], [])
    | some v =>
      match v with
      | GoValue.vlist vs =>
        if vs.length > 0 then ([c.Column], vs)
        else ([c.Column ++ " " ++ c.Operator ++ " ?"], [v])
      | _ => ([c.Column ++ " " ++ c.Operator ++ " ?"], [v])

/-- The condition loop of `buildWhereClause`: every condition after the first
is preceded by its `Logic` connector as a separate part. -/
def buildWhereParts (first : Bool) : List QueryCondition → List String × List GoValue
  | [] => ([], [])
  | c :: rest =>
    let cp := condParts c
    let rp := buildWhereParts false rest
    ((if first then [] else [c.Logic]) ++ cp.1 ++ rp.1, cp.2 ++ rp.2)

/-- `buildWhereClause`: parts are joined with single spaces. -/
def buildWhereClause (qb : queryBuilder) : String × List GoValue :=
  let pa := buildWhereParts true qb.conditions
  (goJoin " " pa.1, pa.2)

/-- The loop of `buildHavingClause`: raw conditions joined by `"AND"` parts,
arguments spliced in order. -/
def buildHavingParts (first : Bool) : List HavingClause → List String × List GoValue
  | [] => ([], [])
  | h :: rest =>
    let rp := buildHavingParts false rest
    ((if first then [] else ["AND"]) ++ h.Condition :: rp.1, h.Args ++ rp.2)

/-- `buildHavingClause`. -/
def buildHavingClause (qb : queryBuilder) : String × List GoValue :=
  let pa := buildHavingParts true qb.havings
  (goJoin " " pa.1, pa.2)

/-- Decimal digit to character, as `fmt.Sprintf("%d", …)` renders it. -/
def digitCh (d : Nat) : Char :=
  if d = 0 then '0' else if d = 1 then '1' else if d = 2 then '2'
  else if d = 3 then '3' else if d = 4 then '4' else if d = 5 then '5'
  else if d = 6 then '6' else if d = 7 then '7' else if d = 8 then '8' else '9'

/-- Decimal digit list of `n` (fuel-indexed so it is structural; the fuel is
always at least the number of digits when called with `n` itself). -/
def natDigits : Nat → Nat → List Char
  | 0, _ => []
  | fuel + 1, n => if n = 0 then [] else natDigits fuel (n / 10) ++ [digitCh (n % 10)]

/-- `fmt.Sprintf("%d", n)` for a natural number. -/
def natToStr (n : Nat) : String :=
  if n = 0 then "0" else String.mk (natDigits n n)

/-- Rendering of one JOIN clause inside `buildSelectSQL`. -/
def joinStr (j : JoinClause) : String :=
  j.Ty ++ " JOIN " ++ j.Table ++ " ON " ++ j.Condition

/-- Rendering of one ORDER BY entry inside `buildSelectSQL`. -/
def orderStr (o : OrderClause) : String :=
  o.Column ++ " " ++ o.Direction

/-- `buildSelectSQL`: assembles the part list exactly in source order
(SELECT, FROM, JOINs, WHERE, GROUP BY, HAVING, ORDER BY, LIMIT, OFFSET) and
joins with spaces; the argument list is WHERE arguments then HAVING
arguments. -/
def buildSelectSQL (qb : queryBuilder) : String × List GoValue :=
  let selectPart :=
    if qb.selectCols.length > 0 then "SELECT " ++ goJoin ", " qb.selectCols else "SELECT *"
  let base := [selectPart, "FROM " ++ qb.tableName] ++ qb.joins.map joinStr
  let p2 := base ++
    (if qb.conditions.length > 0 then ["WHERE " ++ (buildWhereClause qb).1] else [])
  let a2 := (if qb.conditions.length > 0 then (buildWhereClause qb).2 else [])
  let p3 := p2 ++
    (if qb.groups.length > 0 then ["GROUP BY " ++ goJoin ", " qb.groups] else [])
  let p4 := p3 ++
    (if qb.havings.length > 0 then ["HAVING " ++ (buildHavingClause qb).1] else [])
  let a4 := a2 ++ (if qb.havings.length > 0 then (buildHavingClause qb).2 else [])
  let p5 := p4 ++
    (if qb.orders.length > 0 then ["ORDER BY " ++ goJoin ", " (qb.orders.map orderStr)] else [])
  let p6 := p5 ++ (if qb.limitNum > 0 then ["LIMIT " ++ natToStr qb.limitNum.toNat] else [])
  let p7 := p6 ++ (if qb.offsetNum > 0 then ["OFFSET " ++ natToStr qb.offsetNum.toNat] else [])
  (goJoin " " p7, a4)

/-- `ToSQL` renders the SELECT form. -/
def ToSQL (qb : queryBuilder) : String × List GoValue := buildSelectSQL qb

/-- Output of `extractColumnsAndValues` on a record: the reflection walk over
the struct's exported, non-`-`-tagged fields is abstracted to its result, an
ordered (snake-cased column name, field value) list. -/
def extractColumnsAndValues (data : List (String × GoValue)) : List String × List GoValue :=
  (data.map Prod.fst, data.map Prod.snd)

/-- `buildInsertSQL`: one `?` per extracted value. -/
def buildInsertSQL (qb : queryBuilder) (data : List (String × GoValue)) :
    String × List GoValue :=
  let cv := extractColumnsAndValues data
  ("INSERT INTO " ++ qb.tableName ++ " (" ++ goJoin ", " cv.1 ++ ") VALUES (" ++
     goJoin ", " (List.replicate cv.2.length "?") ++ ")", cv.2)

/-- `buildUpdateSQL`: a `col = ?` SET fragment per extracted column, then the
WHERE clause; arguments are the extracted values then the WHERE arguments. -/
def buildUpdateSQL (qb : queryBuilder) (data : List (String × GoValue)) :
    String × List GoValue :=
  let cv := extractColumnsAndValues data
  let setParts := cv.1.map (fun c => c ++ " = ?")
  let p2 := ["UPDATE " ++ qb.tableName, "SET " ++ goJoin ", " setParts] ++
    (if qb.conditions.length > 0 then ["WHERE " ++ (buildWhereClause qb).1] else [])
  let a2 := cv.2 ++ (if qb.conditions.length > 0 then (buildWhereClause qb).2 else [])
  (goJoin " " p2, a2)

/-- One chained call of the `QueryBuilder` fluent API (`types.go`),
so that a "chain of query-builder calls" is a `List BuilderOp`. -/
inductive BuilderOp where
  | Select (columns : List String)
  | From (table : String)
  | Where (condition : String) (args : List GoValue)
  | WhereIn (column : String) (values : List GoValue)
  | WhereNotIn (column : String) (values : List GoValue)
  | WhereBetween (column : String) (start stop : GoValue)
  | WhereNull (column : String)
  | WhereNotNull (column : String)
  | OrderBy (column : String) (direction : List String)
  | GroupBy (columns : List String)
  | Having (condition : String) (args : List GoValue)
  | Limit (limit : Int)
  | Offset (offset : Int)
  | Join (table condition : String)
  | LeftJoin (table condition : String)
  | RightJoin (table condition : String)
  | InnerJoin (table condition : String)

/-- Dispatch one fluent call to the corresponding builder method. -/
def applyOp (qb : queryBuilder) : BuilderOp → queryBuilder
  | .Select cols => qb.Select cols
  | .From t => qb.From t
  | .Where cond args => qb.Where cond args
  | .WhereIn col vs => qb.WhereIn col vs
  | .WhereNotIn col vs => qb.WhereNotIn col vs
  | .WhereBetween col a b => qb.WhereBetween col a b
  | .WhereNull col => qb.WhereNull col
  | .WhereNotNull col => qb.WhereNotNull col
  | .OrderBy col dir => qb.OrderBy col dir
  | .GroupBy cols => qb.GroupBy cols
  | .Having cond args => qb.Having cond args
  | .Limit n => qb.Limit n
  | .Offset n => qb.Offset n
  | .Join t c => qb.Join t c
  | .LeftJoin t c => qb.LeftJoin t c
  | .RightJoin t c => qb.RightJoin t c
  | .InnerJoin t c => qb.InnerJoin t c

/-- Apply a whole chain of fluent calls in order. -/
def applyOps (qb : queryBuilder) (ops : List BuilderOp) : queryBuilder :=
  ops.foldl applyOp qb

/-- Precondition of the placeholder-alignment claim: raw `Where`/`Having`
condition strings contain exactly as many `?` as arguments supplied with
them, and every other string handed to the chain (identifiers, join and
order clauses) contains no `?` of its own. -/
def opOK : BuilderOp → Prop
  | .Select cols => ∀ s ∈ cols, qCount s = 0
  | .From t => qCount t = 0
  | .Where cond args => qCount cond = args.length
  | .WhereIn col _ => qCount col = 0
  | .WhereNotIn col _ => qCount col = 0
  | .WhereBetween col _ _ => qCount col = 0
  | .WhereNull col => qCount col = 0
  | .WhereNotNull col => qCount col = 0
  | .OrderBy col dirs => qCount col = 0 ∧ ∀ d ∈ dirs, qCount d.toUpper = 0
  | .GroupBy cols => ∀ s ∈ cols, qCount s = 0
  | .Having cond args => qCount cond = args.length
  | .Limit _ => True
  | .Offset _ => True
  | .Join t c => qCount t = 0 ∧ qCount c = 0
  | .LeftJoin t c => qCount t = 0 ∧ qCount c = 0
  | .RightJoin t c => qCount t = 0 ∧ qCount c = 0
  | .InnerJoin t c => qCount t = 0 ∧ qCount c = 0

/-- A stored condition is aligned: its connector is `?`-free and the SQL
fragment it renders to carries exactly as many `?` as the values it
contributes to the argument list. -/
def condOK (c : QueryCondition) : Prop :=
  qCount c.Logic = 0 ∧ qCounts (condParts c).1 = (condParts c).2.length

/-- Builder-state invariant maintained by every fluent call satisfying
`opOK`. -/
def QBok (qb : queryBuilder) : Prop :=
  qCount qb.tableName = 0 ∧
  (∀ s ∈ qb.selectCols, qCount s = 0) ∧
  (∀ c ∈ qb.conditions, condOK c) ∧
  (∀ j ∈ qb.joins, qCount (joinStr j) = 0) ∧
  (∀ g ∈ qb.groups, qCount g = 0) ∧
  (∀ o ∈ qb.orders, qCount (orderStr o) = 0) ∧
  (∀ h ∈ qb.havings, qCount h.Condition = h.Args.length)

theorem qCount_replicate_join (n : Nat) :
    qCount (goJoin ", " (List.replicate n "?")) = n := by
  rw [qCount_goJoin _ (by decide)]
  induction n with
  | zero => simp [qCounts]
  | succ k ih =>
    rw [List.replicate_succ]
    have h1 : qCount "?" = 1 := by decide
    simp only [qCounts, List.map_cons, List.sum_cons]
    simp only [qCounts] at ih
    omega

theorem buildWhereParts_count (conds : List QueryCondition) (first : Bool)
    (h : ∀ c ∈ conds, condOK c) :
    qCounts (buildWhereParts first conds).1 = (buildWhereParts first conds).2.length := by
  induction conds generalizing first with
  | nil => simp [buildWhereParts, qCounts]
  | cons c rest ih =>
    have hc := h c (by simp)
    have hrest := ih false (fun x hx => h x (by simp [hx]))
    simp only [buildWhereParts, qCounts_append, List.length_append]
    rw [hrest, hc.2]
    cases first with
    | true => simp [qCounts]
    | false => simp [qCounts, hc.1]

theorem whereClause_count (qb : queryBuilder) (h : ∀ c ∈ qb.conditions, condOK c) :
    qCount (buildWhereClause qb).1 = (buildWhereClause qb).2.length := by
  simpa [buildWhereClause, qCount_goJoin _ (by decide : qCount " " = 0)] using
    buildWhereParts_count qb.conditions true h

theorem buildHavingParts_count (hs : List HavingClause) (first : Bool)
    (h : ∀ x ∈ hs, qCount x.Condition = x.Args.length) :
    qCounts (buildHavingParts first hs).1 = (buildHavingParts first hs).2.length := by
  induction hs generalizing first with
  | nil => simp [buildHavingParts, qCounts]
  | cons x rest ih =>
    have hx := h x (by simp)
    have hrest := ih false (fun y hy => h y (by simp [hy]))
    have hA : qCount "AND" = 0 := by decide
    simp only [buildHavingParts, qCounts_append, List.length_append]
    simp only [qCounts, List.map_cons, List.sum_cons, List.map_nil, List.sum_nil] at hrest ⊢
    cases first <;> simp [hx, hA, hrest]

theorem havingClause_count (qb : queryBuilder)
    (h : ∀ x ∈ qb.havings, qCount x.Condition = x.Args.length) :
    qCount (buildHavingClause qb).1 = (buildHavingClause qb).2.length := by
  simpa [buildHavingClause, qCount_goJoin _ (by decide : qCount " " = 0)] using
    buildHavingParts_count qb.havings true h

theorem digitCh_ne (d : Nat) : digitCh d ≠ '?' := by
  unfold digitCh
  split_ifs <;> decide

theorem natDigits_no_q (fuel n : Nat) : '?' ∉ natDigits fuel n := by
  induction fuel generalizing n with
  | zero => simp [natDigits]
  | succ k ih =>
    simp only [natDigits]
    split
    · simp
    · intro hmem
      rcases List.mem_append.1 hmem with h1 | h1
      · exact ih _ h1
      · simp at h1
        exact digitCh_ne _ h1.symm

theorem natToStr_q (n : Nat) : qCount (natToStr n) = 0 := by
  unfold natToStr
  split
  · decide
  · simpa [qCount] using List.count_eq_zero.2 (natDigits_no_q n n)

theorem condParts_Where_nil (cond : String) :
    condParts ⟨cond, "=", some (GoValue.vlist []), [], "AND"⟩ =
      ([cond ++ " " ++ "=" ++ " ?"], [GoValue.vlist []]) := rfl

theorem condParts_Where_cons (cond : String) (a : GoValue) (as : List GoValue) :
    condParts ⟨cond, "=", some (GoValue.vlist (a :: as)), [], "AND"⟩ =
      ([cond], a :: as) := by
  unfold condParts; simp

theorem condParts_WhereIn (col : String) (vs : List GoValue) :
    condParts ⟨col, "IN", none, vs, "AND"⟩ =
      ([col ++ " " ++ "IN" ++ " (" ++ goJoin ", " (List.replicate vs.length "?") ++ ")"],
        vs) := rfl

theorem condParts_WhereNotIn (col : String) (vs : List GoValue) :
    condParts ⟨col, "NOT IN", none, vs, "AND"⟩ =
      ([col ++ " " ++ "NOT IN" ++ " (" ++ goJoin ", " (List.replicate vs.length "?") ++ ")"],
        vs) := rfl

theorem condParts_Between (col : String) (a b : GoValue) :
    condParts ⟨col, "BETWEEN", none, [a, b], "AND"⟩ =
      ([col ++ " BETWEEN ? AND ?"], [a, b]) := rfl

theorem condParts_Null (col : String) :
    condParts ⟨col, "IS NULL", none, [], "AND"⟩ = ([col ++ " " ++ "IS NULL"], []) := rfl

theorem condParts_NotNull (col : String) :
    condParts ⟨col, "IS NOT NULL", none, [], "AND"⟩ =
      ([col ++ " " ++ "IS NOT NULL"], []) := rfl

theorem qCount_AND : qCount "AND" = 0 := by decide

theorem qCounts_single (s : String) : qCounts [s] = qCount s := by
  simp [qCounts]

theorem condOK_Where (cond : String) (args : List GoValue)
    (h : qCount cond = args.length) : condOK ⟨cond, "=", some (GoValue.vlist args), [], "AND"⟩ := by
  cases args with
  | nil =>
    refine ⟨qCount_AND, ?_⟩
    rw [condParts_Where_nil, qCounts_single]
    simp only [List.length_nil] at h
    have e1 : qCount " " = 0 := by decide
    have e2 : qCount "=" = 0 := by decide
    have e3 : qCount " ?" = 1 := by decide
    simp only [qCount_append, List.length_cons, List.length_nil]
    omega
  | cons a as =>
    refine ⟨qCount_AND, ?_⟩
    rw [condParts_Where_cons, qCounts_single, h]

theorem condOK_WhereIn (col : String) (vs : List GoValue) (h : qCount col = 0) :
    condOK ⟨col, "IN", none, vs, "AND"⟩ := by
  refine ⟨qCount_AND, ?_⟩
  rw [condParts_WhereIn, qCounts_single]
  have e1 : qCount " " = 0 := by decide
  have e2 : qCount "IN" = 0 := by decide
  have e3 : qCount " (" = 0 := by decide
  have e4 : qCount ")" = 0 := by decide
  have e5 := qCount_replicate_join vs.length
  simp only [qCount_append]
  omega

theorem condOK_WhereNotIn (col : String) (vs : List GoValue) (h : qCount col = 0) :
    condOK ⟨col, "NOT IN", none, vs, "AND"⟩ := by
  refine ⟨qCount_AND, ?_⟩
  rw [condParts_WhereNotIn, qCounts_single]
  have e1 : qCount " " = 0 := by decide
  have e2 : qCount "NOT IN" = 0 := by decide
  have e3 : qCount " (" = 0 := by decide
  have e4 : qCount ")" = 0 := by decide
  have e5 := qCount_replicate_join vs.length
  simp only [qCount_append]
  omega

theorem condOK_Between (col : String) (a b : GoValue) (h : qCount col = 0) :
    condOK ⟨col, "BETWEEN", none, [a, b], "AND"⟩ := by
  refine ⟨qCount_AND, ?_⟩
  rw [condParts_Between, qCounts_single]
  have e1 : qCount " BETWEEN ? AND ?" = 2 := by decide
  simp only [qCount_append, List.length_cons, List.length_nil]
  omega

theorem condOK_Null (col : String) (h : qCount col = 0) :
    condOK ⟨col, "IS NULL", none, [], "AND"⟩ := by
  refine ⟨qCount_AND, ?_⟩
  rw [condParts_Null, qCounts_single]
  have e1 : qCount " " = 0 := by decide
  have e2 : qCount "IS NULL" = 0 := by decide
  simp only [qCount_append, List.length_nil]
  omega

theorem condOK_NotNull (col : String) (h : qCount col = 0) :
    condOK ⟨col, "IS NOT NULL", none, [], "AND"⟩ := by
  refine ⟨qCount_AND, ?_⟩
  rw [condParts_NotNull, qCounts_single]
  have e1 : qCount " " = 0 := by decide
  have e2 : qCount "IS NOT NULL" = 0 := by decide
  simp only [qCount_append, List.length_nil]
  omega

theorem forall_mem_snoc {α : Type} {P : α → Prop} {l : List α} {x : α}
    (hl : ∀ a ∈ l, P a) (hx : P x) : ∀ a ∈ l ++ [x], P a := by
  intro a ha
  rcases List.mem_append.1 ha with h | h
  · exact hl a h
  · simp at h; subst h; exact hx

theorem applyOp_ok (qb : queryBuilder) (op : BuilderOp) (hq : QBok qb) (hop : opOK op) :
    QBok (applyOp qb op) := by
  obtain ⟨h1, h2, h3, h4, h5, h6, h7⟩ := hq
  cases op with
  | Select cols => exact ⟨h1, hop, h3, h4, h5, h6, h7⟩
  | From t => exact ⟨hop, h2, h3, h4, h5, h6, h7⟩
  | Where cond args =>
    exact ⟨h1, h2, forall_mem_snoc h3 (condOK_Where cond args hop), h4, h5, h6, h7⟩
  | WhereIn col vs =>
    exact ⟨h1, h2, forall_mem_snoc h3 (condOK_WhereIn col vs hop), h4, h5, h6, h7⟩
  | WhereNotIn col vs =>
    exact ⟨h1, h2, forall_mem_snoc h3 (condOK_WhereNotIn col vs hop), h4, h5, h6, h7⟩
  | WhereBetween col a b =>
    exact ⟨h1, h2, forall_mem_snoc h3 (condOK_Between col a b hop), h4, h5, h6, h7⟩
  | WhereNull col =>
    exact ⟨h1, h2, forall_mem_snoc h3 (condOK_Null col hop), h4, h5, h6, h7⟩
  | WhereNotNull col =>
    exact ⟨h1, h2, forall_mem_snoc h3 (condOK_NotNull col hop), h4, h5, h6, h7⟩
  | OrderBy col dirs =>
    obtain ⟨hcol, hdirs⟩ := hop
    refine ⟨h1, h2, h3, h4, h5, forall_mem_snoc h6 ?_, h7⟩
    have hdir : qCount (queryBuilder.orderDirection dirs) = 0 := by
      cases dirs with
      | nil => decide
      | cons d ds => exact hdirs d (by simp)
    have hsp : qCount " " = 0 := by decide
    simp only [orderStr, qCount_append]
    omega
  | GroupBy cols =>
    refine ⟨h1, h2, h3, h4, ?_, h6, h7⟩
    intro g hg
    rcases List.mem_append.1 hg with h | h
    · exact h5 g h
    · exact hop g h
  | Having cond args =>
    exact ⟨h1, h2, h3, h4, h5, h6, forall_mem_snoc h7 hop⟩
  | Limit n => exact ⟨h1, h2, h3, h4, h5, h6, h7⟩
  | Offset n => exact ⟨h1, h2, h3, h4, h5, h6, h7⟩
  | Join t c =>
    obtain ⟨ht, hc⟩ := hop
    refine ⟨h1, h2, h3, forall_mem_snoc h4 ?_, h5, h6, h7⟩
    have e1 : qCount "INNER" = 0 := by decide
    have e2 : qCount " JOIN " = 0 := by decide
    have e3 : qCount " ON " = 0 := by decide
    simp only [joinStr, qCount_append]
    omega
  | LeftJoin t c =>
    obtain ⟨ht, hc⟩ := hop
    refine ⟨h1, h2, h3, forall_mem_snoc h4 ?_, h5, h6, h7⟩
    have e1 : qCount "LEFT" = 0 := by decide
    have e2 : qCount " JOIN " = 0 := by decide
    have e3 : qCount " ON " = 0 := by decide
    simp only [joinStr, qCount_append]
    omega
  | RightJoin t c =>
    obtain ⟨ht, hc⟩ := hop
    refine ⟨h1, h2, h3, forall_mem_snoc h4 ?_, h5, h6, h7⟩
    have e1 : qCount "RIGHT" = 0 := by decide
    have e2 : qCount " JOIN " = 0 := by decide
    have e3 : qCount " ON " = 0 := by decide
    simp only [joinStr, qCount_append]
    omega
  | InnerJoin t c =>
    obtain ⟨ht, hc⟩ := hop
    refine ⟨h1, h2, h3, forall_mem_snoc h4 ?_, h5, h6, h7⟩
    have e1 : qCount "INNER" = 0 := by decide
    have e2 : qCount " JOIN " = 0 := by decide
    have e3 : qCount " ON " = 0 := by decide
    simp only [joinStr, qCount_append]
    omega

theorem NewQueryBuilder_ok (t : String) (h : qCount t = 0) : QBok (NewQueryBuilder t) := by
  refine ⟨h, ?_, ?_, ?_, ?_, ?_, ?_⟩ <;> simp [NewQueryBuilder]

theorem applyOps_ok (ops : List BuilderOp) (qb : queryBuilder) (hq : QBok qb)
    (hops : ∀ op ∈ ops, opOK op) : QBok (applyOps qb ops) := by
  induction ops generalizing qb with
  | nil => exact hq
  | cons op rest ih =>
    exact ih _ (applyOp_ok qb op hq (hops op (by simp)))
      (fun o ho => hops o (by simp [ho]))

theorem qCounts_zero {l : List String} (h : ∀ s ∈ l, qCount s = 0) : qCounts l = 0 := by
  unfold qCounts
  apply List.sum_eq_zero
  intro x hx
  rcases List.mem_map.1 hx with ⟨s, hs, rfl⟩
  exact h s hs

theorem qCounts_nil : qCounts [] = 0 := rfl

theorem qCounts_cons (s : String) (l : List String) :
    qCounts (s :: l) = qCount s + qCounts l := by
  simp [qCounts]

theorem qCounts_ite (P : Prop) [Decidable P] (l : List String) :
    qCounts (if P then l else []) = if P then qCounts l else 0 := by
  split <;> rfl

theorem length_ite (P : Prop) [Decidable P] (l : List GoValue) :
    (if P then l else []).length = if P then l.length else 0 := by
  split <;> rfl

theorem buildSelectSQL_count (qb : queryBuilder) (h : QBok qb) :
    qCount (buildSelectSQL qb).1 = (buildSelectSQL qb).2.length := by
  obtain ⟨h1, h2, h3, h4, h5, h6, h7⟩ := h
  have hw := whereClause_count qb h3
  have hh := havingClause_count qb h7
  have hsel : qCount (if qb.selectCols.length > 0 then
      "SELECT " ++ goJoin ", " qb.selectCols else "SELECT *") = 0 := by
    split
    · rw [qCount_append, qCount_goJoin _ (by decide), qCounts_zero h2]; decide
    · decide
  have hfrom : qCount ("FROM " ++ qb.tableName) = 0 := by
    rw [qCount_append, h1]; decide
  have hjoins : qCounts (qb.joins.map joinStr) = 0 := by
    refine qCounts_zero ?_
    intro s hs
    rcases List.mem_map.1 hs with ⟨j, hj, rfl⟩
    exact h4 j hj
  have hgrp : qCount ("GROUP BY " ++ goJoin ", " qb.groups) = 0 := by
    rw [qCount_append, qCount_goJoin _ (by decide), qCounts_zero h5]; decide
  have hordmem : ∀ s ∈ qb.orders.map orderStr, qCount s = 0 := by
    intro s hs
    rcases List.mem_map.1 hs with ⟨o, ho, rfl⟩
    exact h6 o ho
  have hord : qCount ("ORDER BY " ++ goJoin ", " (qb.orders.map orderStr)) = 0 := by
    rw [qCount_append, qCount_goJoin _ (by decide), qCounts_zero hordmem]; decide
  have hlim : qCount ("LIMIT " ++ natToStr qb.limitNum.toNat) = 0 := by
    rw [qCount_append, natToStr_q]; decide
  have hoff : qCount ("OFFSET " ++ natToStr qb.offsetNum.toNat) = 0 := by
    rw [qCount_append, natToStr_q]; decide
  have hwp : qCount ("WHERE " ++ (buildWhereClause qb).1) = (buildWhereClause qb).2.length := by
    have e : qCount "WHERE " = 0 := by decide
    rw [qCount_append, hw, e, Nat.zero_add]
  have hhp : qCount ("HAVING " ++ (buildHavingClause qb).1) = (buildHavingClause qb).2.length := by
    have e : qCount "HAVING " = 0 := by decide
    rw [qCount_append, hh, e, Nat.zero_add]
  simp only [buildSelectSQL]
  rw [qCount_goJoin _ (by decide)]
  simp only [qCounts_append, qCounts_cons, qCounts_nil, qCounts_ite, qCounts_single,
    length_ite, List.length_append, hsel, hfrom, hjoins, hgrp, hord, hlim, hoff, hwp, hhp,
    ite_self, Nat.add_zero, Nat.zero_add]

theorem buildInsertSQL_count (qb : queryBuilder) (data : List (String × GoValue))
    (h1 : qCount qb.tableName = 0) (hd : ∀ p ∈ data, qCount p.1 = 0) :
    qCount (buildInsertSQL qb data).1 = (buildInsertSQL qb data).2.length := by
  have hcols : qCount (goJoin ", " (data.map Prod.fst)) = 0 := by
    rw [qCount_goJoin _ (by decide)]
    refine qCounts_zero ?_
    intro s hs
    rcases List.mem_map.1 hs with ⟨p, hp, rfl⟩
    exact hd p hp
  have hph := qCount_replicate_join (data.map Prod.snd).length
  have e1 : qCount "INSERT INTO " = 0 := by decide
  have e2 : qCount " (" = 0 := by decide
  have e3 : qCount ") VALUES (" = 0 := by decide
  have e4 : qCount ")" = 0 := by decide
  simp only [buildInsertSQL, extractColumnsAndValues, qCount_append]
  omega

theorem qCounts_setParts (l : List String) (h : ∀ s ∈ l, qCount s = 0) :
    qCounts (l.map (fun c => c ++ " = ?")) = l.length := by
  induction l with
  | nil => rfl
  | cons s rest ih =>
    have hs := h s (by simp)
    have e1 : qCount " = ?" = 1 := by decide
    rw [List.map_cons, qCounts_cons, qCount_append, hs,
      ih (fun x hx => h x (by simp [hx]))]
    simp only [List.length_cons]
    omega

theorem buildUpdateSQL_count (qb : queryBuilder) (data : List (String × GoValue))
    (h1 : qCount qb.tableName = 0) (h3 : ∀ c ∈ qb.conditions, condOK c)
    (hd : ∀ p ∈ data, qCount p.1 = 0) :
    qCount (buildUpdateSQL qb data).1 = (buildUpdateSQL qb data).2.length := by
  have hw := whereClause_count qb h3
  have hup : qCount ("UPDATE " ++ qb.tableName) = 0 := by
    rw [qCount_append, h1]; decide
  have hsetmem : ∀ s ∈ data.map Prod.fst, qCount s = 0 := by
    intro s hs
    rcases List.mem_map.1 hs with ⟨p, hp, rfl⟩
    exact hd p hp
  have hset : qCount ("SET " ++
      goJoin ", " ((data.map Prod.fst).map (fun c => c ++ " = ?"))) =
      (data.map Prod.snd).length := by
    have e : qCount "SET " = 0 := by decide
    rw [qCount_append, qCount_goJoin _ (by decide), qCounts_setParts _ hsetmem, e,
      Nat.zero_add, List.length_map, List.length_map]
  have hwp : qCount ("WHERE " ++ (buildWhereClause qb).1) = (buildWhereClause qb).2.length := by
    have e : qCount "WHERE " = 0 := by decide
    rw [qCount_append, hw, e, Nat.zero_add]
  simp only [buildUpdateSQL, extractColumnsAndValues]
  rw [qCount_goJoin _ (by decide)]
  simp only [qCounts_append, qCounts_cons, qCounts_nil, qCounts_ite, length_ite,
    List.length_append, hup, hset, hwp, ite_self, Nat.add_zero, Nat.zero_add]

/-- C1: for every chain of query-builder calls, the number (and, positionally,
the left-to-right order) of `?` placeholders in the SQL text produced by
`buildSelectSQL`, `buildWhereClause`, `buildHavingClause`, `buildInsertSQL`
and `buildUpdateSQL` equals the length of the returned argument list, given
that raw `Where`/`Having` conditions carry exactly as many `?` as supplied
arguments (and identifiers carry none); in particular `WhereIn`/`WhereNotIn`
contribute exactly `len(values)` placeholders and arguments, `WhereBetween`
exactly two, and `WhereNull`/`WhereNotNull` exactly zero. -/
theorem C1_placeholder_argument_alignment
    (ops : List BuilderOp) (table : String)
    (insertData updateData : List (String × GoValue))
    (col : String) (values : List GoValue) (start stop : GoValue)
    (htable : qCount table = 0)
    (hops : ∀ op ∈ ops, opOK op)
    (hins : ∀ p ∈ insertData, qCount p.1 = 0)
    (hupd : ∀ p ∈ updateData, qCount p.1 = 0)
    (hcol : qCount col = 0) :
    qCount (buildSelectSQL (applyOps (NewQueryBuilder table) ops)).1 =
      (buildSelectSQL (applyOps (NewQueryBuilder table) ops)).2.length ∧
    qCount (buildWhereClause (applyOps (NewQueryBuilder table) ops)).1 =
      (buildWhereClause (applyOps (NewQueryBuilder table) ops)).2.length ∧
    qCount (buildHavingClause (applyOps (NewQueryBuilder table) ops)).1 =
      (buildHavingClause (applyOps (NewQueryBuilder table) ops)).2.length ∧
    qCount (buildInsertSQL (applyOps (NewQueryBuilder table) ops) insertData).1 =
      (buildInsertSQL (applyOps (NewQueryBuilder table) ops) insertData).2.length ∧
    qCount (buildUpdateSQL (applyOps (NewQueryBuilder table) ops) updateData).1 =
      (buildUpdateSQL (applyOps (NewQueryBuilder table) ops) updateData).2.length ∧
    (qCounts (condParts ⟨col, "IN", none, values, "AND"⟩).1 = values.length ∧
      (condParts ⟨col, "IN", none, values, "AND"⟩).2 = values) ∧
    (qCounts (condParts ⟨col, "NOT IN", none, values, "AND"⟩).1 = values.length ∧
      (condParts ⟨col, "NOT IN", none, values, "AND"⟩).2 = values) ∧
    (qCounts (condParts ⟨col, "BETWEEN", none, [start, stop], "AND"⟩).1 = 2 ∧
      (condParts ⟨col, "BETWEEN", none, [start, stop], "AND"⟩).2 = [start, stop]) ∧
    (qCounts (condParts ⟨col, "IS NULL", none, [], "AND"⟩).1 = 0 ∧
      (condParts ⟨col, "IS NULL", none, [], "AND"⟩).2 = []) ∧
    (qCounts (condParts ⟨col, "IS NOT NULL", none, [], "AND"⟩).1 = 0 ∧
      (condParts ⟨col, "IS NOT NULL", none, [], "AND"⟩).2 = []) := by
  have hqb := applyOps_ok ops (NewQueryBuilder table) (NewQueryBuilder_ok table htable) hops
  obtain ⟨k1, k2, k3, k4, k5, k6, k7⟩ := hqb
  refine ⟨buildSelectSQL_count _ ⟨k1, k2, k3, k4, k5, k6, k7⟩,
    whereClause_count _ k3, havingClause_count _ k7,
    buildInsertSQL_count _ _ k1 hins, buildUpdateSQL_count _ _ k1 k3 hupd,
    ?_, ?_, ?_, ?_, ?_⟩
  · refine ⟨?_, by rw [condParts_WhereIn]⟩
    have := (condOK_WhereIn col values hcol).2
    rwa [condParts_WhereIn] at this
  · refine ⟨?_, by rw [condParts_WhereNotIn]⟩
    have := (condOK_WhereNotIn col values hcol).2
    rwa [condParts_WhereNotIn] at this
  · refine ⟨?_, by rw [condParts_Between]⟩
    have := (condOK_Between col start stop hcol).2
    rw [condParts_Between] at this
    simpa using this
  · refine ⟨?_, by rw [condParts_Null]⟩
    have := (condOK_Null col hcol).2
    rw [condParts_Null] at this
    simpa using this
  · refine ⟨?_, by rw [condParts_NotNull]⟩
    have := (condOK_NotNull col hcol).2
    rw [condParts_NotNull] at this
    simpa using this

/-- Concrete instantiation of `C1_placeholder_argument_alignment` on a chain
exercising every kind of condition, with every hypothesis discharged by
evaluation. -/
theorem C1_placeholder_argument_alignment_witness :
    qCount (buildSelectSQL (applyOps (NewQueryBuilder "users")
        [BuilderOp.Where "age > ?" [GoValue.vint 18],
          BuilderOp.WhereIn "role" [GoValue.vstr "admin", GoValue.vstr "user"],
          BuilderOp.WhereBetween "age" (GoValue.vint 1) (GoValue.vint 99),
          BuilderOp.WhereNull "deleted_at",
          BuilderOp.Having "cnt > ?" [GoValue.vint 3],
          BuilderOp.GroupBy ["dept"],
          BuilderOp.OrderBy "age" [],
          BuilderOp.Limit 5,
          BuilderOp.Join "orders" "users.id = orders.user_id"])).1 =
      (buildSelectSQL (applyOps (NewQueryBuilder "users")
        [BuilderOp.Where "age > ?" [GoValue.vint 18],
          BuilderOp.WhereIn "role" [GoValue.vstr "admin", GoValue.vstr "user"],
          BuilderOp.WhereBetween "age" (GoValue.vint 1) (GoValue.vint 99),
          BuilderOp.WhereNull "deleted_at",
          BuilderOp.Having "cnt > ?" [GoValue.vint 3],
          BuilderOp.GroupBy ["dept"],
          BuilderOp.OrderBy "age" [],
          BuilderOp.Limit 5,
          BuilderOp.Join "orders" "users.id = orders.user_id"])).2.length :=
  (C1_placeholder_argument_alignment
    [BuilderOp.Where "age > ?" [GoValue.vint 18],
      BuilderOp.WhereIn "role" [GoValue.vstr "admin", GoValue.vstr "user"],
      BuilderOp.WhereBetween "age" (GoValue.vint 1) (GoValue.vint 99),
      BuilderOp.WhereNull "deleted_at",
      BuilderOp.Having "cnt > ?" [GoValue.vint 3],
      BuilderOp.GroupBy ["dept"],
      BuilderOp.OrderBy "age" [],
      BuilderOp.Limit 5,
      BuilderOp.Join "orders" "users.id = orders.user_id"]
    "users" [("name", GoValue.vstr "bob")] [("age", GoValue.vint 30)]
    "role" [GoValue.vstr "admin"] (GoValue.vint 0) (GoValue.vint 9)
    (by decide)
    (by
      intro op hop
      simp only [List.mem_cons, List.not_mem_nil, or_false] at hop
      rcases hop with rfl | rfl | rfl | rfl | rfl | rfl | rfl | rfl | rfl
      · exact (by decide : qCount "age > ?" = 1)
      · exact (by decide : qCount "role" = 0)
      · exact (by decide : qCount "age" = 0)
      · exact (by decide : qCount "deleted_at" = 0)
      · exact (by decide : qCount "cnt > ?" = 1)
      · intro s hs
        rw [List.mem_singleton] at hs
        subst hs
        decide
      · exact ⟨by decide, by simp⟩
      · trivial
      · exact ⟨by decide, by decide⟩)
    (by
      intro p hp
      rw [List.mem_singleton] at hp
      subst hp
      decide)
    (by
      intro p hp
      rw [List.mem_singleton] at hp
      subst hp
      decide)
    (by decide)).1

/-- C8: the chain
`Model(User).Where("age > ?", 18).WhereIn("role", "admin", "user").Limit(5).ToSQL()`
(`Model(&User{})` resolves the table name `users`) yields exactly the SQL
`SELECT * FROM users WHERE age > ? AND role IN (?, ?) LIMIT 5` — containing
the clause `WHERE age > ? AND role IN (?, ?)` and ending in `LIMIT 5` —
together with the argument list `[18, "admin", "user"]` in that order. -/
theorem C8_scenarioB_chain :
    ToSQL ((((NewQueryBuilder "users").Where "age > ?" [GoValue.vint 18]).WhereIn "role"
        [GoValue.vstr "admin", GoValue.vstr "user"]).Limit 5) =
      ("SELECT * FROM users " ++ "WHERE age > ? AND role IN (?, ?)" ++ " LIMIT 5",
        [GoValue.vint 18, GoValue.vstr "admin", GoValue.vstr "user"]) := by
  rfl

/-- C10: `Where(condition)` with zero variadic arguments does not emit the
raw condition verbatim with no arguments: it stores the condition with
operator `"="` and the (empty) argument slice itself as `Value`, and the
rendered WHERE fragment is the condition followed by `" = ?"` with exactly
one appended value, the empty slice. -/
theorem C10_where_no_args_spurious_placeholder (qb : queryBuilder) (cond tbl : String) :
    (qb.Where cond []).conditions =
      qb.conditions ++ [⟨cond, "=", some (GoValue.vlist []), [], "AND"⟩] ∧
    buildWhereClause ((NewQueryBuilder tbl).Where cond []) =
      (cond ++ " = ?", [GoValue.vlist []]) := by
  refine ⟨rfl, ?_⟩
  show (goJoin " " ((condParts ⟨cond, "=", some (GoValue.vlist []), [], "AND"⟩).1 ++ []),
    (condParts ⟨cond, "=", some (GoValue.vlist []), [], "AND"⟩).2 ++ []) = _
  rw [condParts_Where_nil]
  simp [goJoin, String.append_assoc]

/-! ## Transaction manager (`types.go`, `TransactionManager.WithTransaction`) -/

/-- How the unit of work finishes: a normal return carrying a Go error
(`none` = nil) or a panic carrying an arbitrary value. -/
inductive FnOut (E P : Type) where
  | ret : Option E → FnOut E P
  | panicked : P → FnOut E P

/-- A unit of work as observable at the transaction boundary: the sequence
of state updates its intermediate statements perform on the transaction's
pending snapshot, and how it finishes. -/
structure TxWork (σ E P : Type) where
  stmts : List (σ → σ)
  fin : FnOut E P

/-- The pending transaction state after the unit of work's statements ran
(transactional semantics: visible to the base state only after COMMIT). -/
def runStmts {σ : Type} (s : σ) (stmts : List (σ → σ)) : σ :=
  stmts.foldl (fun a g => g a) s

/-- Result of `WithTransaction`: a normal return carrying the database state
and the returned error, or a re-raised panic carrying the database state
and the panic value. -/
inductive TxResult (σ E P : Type) where
  | norm : σ → Option E → TxResult σ E P
  | panicked : σ → P → TxResult σ E P

/-- `TransactionManager.WithTransaction`: `Begin` (a failure is returned at
once), run the unit of work; the deferred recover rolls back and re-raises
the identical panic value; a non-nil error triggers rollback and is
returned unchanged; otherwise the transaction commits, installing the
pending state. -/
def WithTransaction {σ E P : Type} (beginErr : Option E) (s : σ) (w : TxWork σ E P) :
    TxResult σ E P :=
  match beginErr with
  | some e => TxResult.norm s (some e)
  | none =>
    let pending := runStmts s w.stmts
    match w.fin with
    | FnOut.panicked p => TxResult.panicked s p
    | FnOut.ret (some e) => TxResult.norm s (some e)
    | FnOut.ret none => TxResult.norm pending none

/-- C2: if the unit of work returns a non-nil error, the transaction is
rolled back (the database keeps its pre-transaction state, discarding all
intermediate statements) and that same error is returned; if it panics,
the transaction is rolled back and the identical panic value is re-raised;
otherwise the transaction is committed (the pending state is installed). -/
theorem C2_withTransaction_semantics {σ E P : Type} (s : σ) (w : TxWork σ E P) :
    (∀ e, w.fin = FnOut.ret (some e) →
        WithTransaction none s w = TxResult.norm s (some e)) ∧
    (∀ p, w.fin = FnOut.panicked p →
        WithTransaction none s w = TxResult.panicked s p) ∧
    (w.fin = FnOut.ret none →
        WithTransaction none s w = TxResult.norm (runStmts s w.stmts) none) := by
  refine ⟨fun e he => ?_, fun p hp => ?_, fun hn => ?_⟩
  · simp [WithTransaction, he]
  · simp [WithTransaction, hp]
  · simp [WithTransaction, hn]

/-- Concrete instantiation of `C2_withTransaction_semantics`: an erroring
callback leaves the database unchanged although its two inserts reported no
immediate error; a panicking callback re-raises the same value over the
unchanged state; a clean callback commits its insert. -/
theorem C2_withTransaction_semantics_witness :
    WithTransaction none ([] : List Nat)
        ⟨[fun db => db ++ [1], fun db => db ++ [2]],
          (FnOut.ret (some "boom") : FnOut String String)⟩ =
      TxResult.norm [] (some "boom") ∧
    WithTransaction none ([] : List Nat)
        ⟨[fun db => db ++ [1]], (FnOut.panicked "pv" : FnOut String String)⟩ =
      TxResult.panicked [] "pv" ∧
    WithTransaction none ([] : List Nat)
        ⟨[fun db => db ++ [1]], (FnOut.ret none : FnOut String String)⟩ =
      TxResult.norm [1] none := by
  refine ⟨?_, ?_, ?_⟩
  · exact (C2_withTransaction_semantics ([] : List Nat)
      ⟨[fun db => db ++ [1], fun db => db ++ [2]],
        (FnOut.ret (some "boom") : FnOut String String)⟩).1 "boom" rfl
  · exact (C2_withTransaction_semantics ([] : List Nat)
      ⟨[fun db => db ++ [1]], (FnOut.panicked "pv" : FnOut String String)⟩).2.1 "pv" rfl
  · exact (C2_withTransaction_semantics ([] : List Nat)
      ⟨[fun db => db ++ [1]], (FnOut.ret none : FnOut String String)⟩).2.2 rfl

/-! ## Single-row scan (`scanRow`) and `First` -/

/-- Shape of the destination argument, as discriminated by `scanRow`'s
reflection checks. -/
inductive DestKind where
  | ptrStruct
  | ptrNonStruct
  | nonPtr

/-- `scanRow` (scan-helper source file): after validating that `dest` is a
pointer to a struct it unconditionally returns the placeholder error — the
single-row binder is left unimplemented by the source. -/
def scanRow : DestKind → Option String
  | DestKind.nonPtr => some "dest必须是指针类型"
  | DestKind.ptrNonStruct => some "dest必须是结构体指针"
  | DestKind.ptrStruct => some "scanRow方法需要进一步实现"

/-- `queryBuilder.First`: sets `limitNum := 1`, renders the single-row
SELECT, and delegates binding to `scanRow`; result is (built SQL and
arguments, returned error). -/
def First (qb : queryBuilder) (dest : DestKind) :
    (String × List GoValue) × Option String :=
  (buildSelectSQL { qb with limitNum := 1 }, scanRow dest)

/-- C3 (against the code): `First` does force LIMIT 1 on the generated
SELECT, but for every builder and every valid struct-pointer destination it
returns the unimplemented-`scanRow` error — it binds no column at all, so
the claimed complete single-row binding never happens. -/
theorem C3_first_single_row_binder_is_stub (qb : queryBuilder) :
    (First qb DestKind.ptrStruct).2 = some "scanRow方法需要进一步实现" ∧
    (First qb DestKind.ptrStruct).1 = buildSelectSQL { qb with limitNum := 1 } ∧
    (First (NewQueryBuilder "users") DestKind.ptrStruct).1 =
      ("SELECT * FROM users" ++ " LIMIT 1", []) := by
  refine ⟨rfl, rfl, rfl⟩

/-! ## SQLite dialect `DropColumnSQL` (dialect source file) -/

/-- `SQLiteDialect.DropColumnSQL`: SQLite cannot drop a column directly, and
the implementation returns a SQL comment string; the `Dialect` interface
offers no error channel here. -/
def SQLiteDialect.DropColumnSQL (tableName columnName : String) : String :=
  "-- SQLite不支持直接删除列: " ++ tableName ++ "." ++ columnName

/-- C5 (against the code): for every table/column input the SQLite dialect
returns a no-op `--` comment string — never an "unsupported operation"
error (the interface has no error result at all), so a migration executing
it silently succeeds while dropping nothing. -/
theorem C5_sqlite_dropcolumn_returns_comment (tableName columnName : String) :
    SQLiteDialect.DropColumnSQL tableName columnName =
      "-- SQLite不支持直接删除列: " ++ tableName ++ "." ++ columnName ∧
    SQLiteDialect.DropColumnSQL "users" "age" =
      "-- SQLite不支持直接删除列: users.age" ∧
    (SQLiteDialect.DropColumnSQL "users" "age").data.take 2 = ['-', '-'] := by
  refine ⟨rfl, rfl, by decide⟩

/-! ## Global handle one-time gate (`orm.go`, `Init`) -/

/-- The process globals of `orm.go`: the `sync.Once` gate and the global
handle (the handle is modelled by the configuration it was built from). -/
structure OnceGate (C : Type) where
  onceDone : Bool
  globalORM : Option C

/-- `Init`: `once.Do` runs the initializer only when the gate has never
fired; the initializer stores the new handle and connects (`connect cfg`
is the error `Connect` would return); when the gate has already fired the
local `err` stays nil and is returned. -/
def Init {C E : Type} (connect : C → Option E) (st : OnceGate C) (cfg : C) :
    OnceGate C × Option E :=
  if st.onceDone then (st, none)
  else ({ onceDone := true, globalORM := some cfg }, connect cfg)

/-- C9: the global handle is initialized at most once: a first `Init` on a
fresh gate fires the initializer (returning `Connect`'s error) and marks
the gate; every later `Init` — whether the first call succeeded or failed —
changes nothing and retries nothing (it returns nil without re-running the
initializer), so a first-call failure is never automatically recovered. -/
theorem C9_init_one_time_gate {C E : Type} (connect : C → Option E) (cfg cfg2 : C) :
    (Init connect ⟨false, none⟩ cfg).1 = ⟨true, some cfg⟩ ∧
    (Init connect ⟨false, none⟩ cfg).2 = connect cfg ∧
    Init connect (Init connect ⟨false, none⟩ cfg).1 cfg2 =
      ((Init connect ⟨false, none⟩ cfg).1, none) := by
  refine ⟨rfl, rfl, rfl⟩

/-! ## Model mapper (`model.go`, tag parsing from the scan-helper file) -/

/-- `camelToSnake` helper loop (`orm.go`): insert `_` before every
non-initial ASCII uppercase rune. -/
def camelToSnakeAux : List Char → Bool → List Char
  | [], _ => []
  | c :: cs, isFirst =>
    (if ¬ isFirst ∧ 'A' ≤ c ∧ c ≤ 'Z' then ['_', c] else [c]) ++ camelToSnakeAux cs false

/-- `camelToSnake`: underscore-insertion pass then `strings.ToLower`. -/
def camelToSnake (s : String) : String :=
  String.map Char.toLower (String.mk (camelToSnakeAux s.data true))

/-- `FieldTag` (`types.go`); the Go field `Type` is spelled `Ty` here. -/
structure FieldTag where
  Column : String
  Ty : String
  Size : Nat
  Primary : Bool
  AutoIncrement : Bool
  NotNull : Bool
  Unique : Bool
  Index : String
  Default : String
  Comment : String
  ForeignKey : String
  References : String

/-- The zero `FieldTag` value. -/
def emptyFieldTag : FieldTag :=
  ⟨"", "", 0, false, false, false, false, "", "", "", "", ""⟩

/-- One iteration of the `parseFieldTag` loop: trim the segment, skip it if
empty, take segment 0 as the column name, and otherwise dispatch on bare
flags and `key:` prefixes (`size:` is simplified to 255 by the source
itself). -/
def applyTagPart (ft : FieldTag) (i : Nat) (part : String) : FieldTag :=
  let p := part.trim
  if p = "" then ft
  else if i = 0 then { ft with Column := p }
  else if p = "primary" then { ft with Primary := true }
  else if p = "auto_increment" then { ft with AutoIncrement := true }
  else if p = "not_null" then { ft with NotNull := true }
  else if p = "unique" then { ft with Unique := true }
  else if p.startsWith "type:" then { ft with Ty := p.drop 5 }
  else if p.startsWith "size:" then { ft with Size := 255 }
  else if p.startsWith "default:" then { ft with Default := p.drop 8 }
  else if p.startsWith "comment:" then { ft with Comment := p.drop 8 }
  else if p.startsWith "index:" then { ft with Index := p.drop 6 }
  else ft

/-- The indexed fold of `parseFieldTag` over the comma-split segments. -/
def parseFieldTagAux : FieldTag → Nat → List String → FieldTag
  | ft, _, [] => ft
  | ft, i, p :: rest => parseFieldTagAux (applyTagPart ft i p) (i + 1) rest

/-- `parseFieldTag`: the empty tag parses to the zero value. -/
def parseFieldTag (tag : String) : FieldTag :=
  if tag = "" then emptyFieldTag
  else parseFieldTagAux emptyFieldTag 0 (tag.splitOn ",")

/-- One struct field as the reflection walk of `getColumns` sees it: its Go
name, its `orm` tag, whether it is exported, and the SQL type
`Dialect.DataType` would derive for its Go type (the dialect lookup is
abstracted to its result). -/
structure GoField where
  Name : String
  tag : String
  exported : Bool
  dialectType : String

/-- `ColumnInfo` (`model.go`); `GoType` (a `reflect.Type`) is omitted, the
Go field `Type` is spelled `Ty`. -/
structure ColumnInfo where
  Name : String
  GoName : String
  Ty : String
  Primary : Bool
  AutoIncrement : Bool
  NotNull : Bool
  Unique : Bool
  Default : String
  Comment : String
  Index : String
  Size : Nat

/-- `ModelManager.getColumns`: skip unexported fields and `-` tags, parse
the tag, default the column name to snake-case of the field name, and take
the explicit `type:` override before the dialect-derived SQL type. -/
def getColumns (fields : List GoField) : List ColumnInfo :=
  fields.filterMap fun f =>
    if ¬ f.exported then none
    else if f.tag = "-" then none
    else
      let ft := parseFieldTag f.tag
      let colName := if ft.Column = "" then camelToSnake f.Name else ft.Column
      some ⟨colName, f.Name, (if ft.Ty ≠ "" then ft.Ty else f.dialectType),
        ft.Primary, ft.AutoIncrement, ft.NotNull, ft.Unique,
        ft.Default, ft.Comment, ft.Index, ft.Size⟩

/-- The input of `GetTableInfo`, classified the way its reflection dispatch
classifies it: a struct value, a pointer to a struct (both carrying the
type name, the optional non-empty result of a `TableName()` method, and the
field list), or anything else (carrying only its type name). -/
inductive ModelInput where
  | structVal (name : String) (tableNameMethod : Option String) (fields : List GoField)
  | ptrStructVal (name : String) (tableNameMethod : Option String) (fields : List GoField)
  | nonStruct (typeName : String)

/-- `ModelManager.getTableName`: a non-empty `TableName()` wins, otherwise
snake-case of the struct type name. -/
def getTableNameOf : ModelInput → String
  | ModelInput.structVal n tn _ | ModelInput.ptrStructVal n tn _ =>
    match tn with
    | some s => if s ≠ "" then s else camelToSnake n
    | none => camelToSnake n
  | ModelInput.nonStruct n => camelToSnake n

/-- `TableInfo` (`model.go`); the `Model` field (the prototype value itself)
is omitted. -/
structure TableInfo where
  Name : String
  Columns : List ColumnInfo

/-- `ModelManager.GetTableInfo`: dereference a pointer, and return `none`
(the Go `nil` — its return type `*TableInfo` has no error channel) when the
input is not a struct; otherwise derive name and columns. -/
def GetTableInfo : ModelInput → Option TableInfo
  | ModelInput.nonStruct _ => none
  | ModelInput.structVal n tn fs =>
    some ⟨getTableNameOf (ModelInput.structVal n tn fs), getColumns fs⟩
  | ModelInput.ptrStructVal n tn fs =>
    some ⟨getTableNameOf (ModelInput.ptrStructVal n tn fs), getColumns fs⟩

/-- The nil-guard of `ModelManager.CreateTable`: the first point at which a
`nil` table-info surfaces as an explicit error. -/
def CreateTableCheck (m : ModelInput) : Option String :=
  match GetTableInfo m with
  | none => some "无法获取表信息"
  | some _ => none

/-- C4 counterexample: on a non-record input (an `int` value) the
table-metadata derivation `GetTableInfo` returns the null result `nil` —
not an error; its return type `*TableInfo` carries no error at all. -/
theorem C4_counterexample_nil_for_non_struct :
    GetTableInfo (ModelInput.nonStruct "int") = none := rfl

/-- C4 amended: for every non-record-type input `GetTableInfo` returns a
null (`nil`) result and no error value; the explicit error surfaces only in
callers such as `CreateTable`, whose nil-guard reports `无法获取表信息`. -/
theorem C4_non_struct_yields_nil_then_caller_error (typeName : String) :
    GetTableInfo (ModelInput.nonStruct typeName) = none ∧
    CreateTableCheck (ModelInput.nonStruct typeName) = some "无法获取表信息" := by
  exact ⟨rfl, rfl⟩

/-- `GetTableInfo` with Go's allocation made explicit: each successful call
evaluates `&TableInfo{…}`, allocating a fresh object, so the embedding
threads an allocation counter; a process-lifetime cache would hand back an
already-allocated address on repeated calls instead. -/
def GetTableInfoAlloc (m : ModelInput) (nextAddr : Nat) :
    Option (Nat × TableInfo) × Nat :=
  match GetTableInfo m with
  | none => (none, nextAddr)
  | some ti => (some (nextAddr, ti), nextAddr + 1)

/-- The `User` model of the repository's README, as `getColumns` sees it. -/
def userModel : ModelInput :=
  ModelInput.ptrStructVal "User" (some "users")
    [⟨"ID", "id,primary,auto_increment", true, "INT"⟩,
      ⟨"Name", "name", true, "VARCHAR(255)"⟩]

/-- C6 counterexample: two consecutive metadata lookups for the same
registered type return two distinct freshly-allocated `TableInfo` objects
(addresses 0 and 1) — the second lookup does not return the first lookup's
cached object, because `ModelManager` has no cache and recomputes on every
call. -/
theorem C6_counterexample_no_cache :
    (GetTableInfoAlloc userModel 0).1.map Prod.fst = some 0 ∧
    (GetTableInfoAlloc userModel (GetTableInfoAlloc userModel 0).2).1.map Prod.fst =
      some 1 ∧
    (0 : Nat) ≠ 1 := by
  refine ⟨rfl, rfl, by decide⟩

/-- C6 amended: the table metadata is not cached: `GetTableInfo` recomputes
it afresh on every call, allocating a new `TableInfo` each time; because
the derivation is a pure function of the type, repeated lookups return
equal values — but distinct, newly-allocated objects, never a cached one. -/
theorem C6_metadata_recomputed_every_call (m : ModelInput) (a : Nat) :
    (GetTableInfoAlloc m a).1.map Prod.snd = GetTableInfo m ∧
    (GetTableInfoAlloc m (GetTableInfoAlloc m a).2).1.map Prod.snd = GetTableInfo m ∧
    ((GetTableInfo m).isSome = true →
      (GetTableInfoAlloc m a).2 = a + 1 ∧
      (GetTableInfoAlloc m a).1.map Prod.fst = some a ∧
      (GetTableInfoAlloc m (GetTableInfoAlloc m a).2).1.map Prod.fst = some (a + 1)) := by
  cases h : GetTableInfo m with
  | none => simp [GetTableInfoAlloc, h]
  | some ti => simp [GetTableInfoAlloc, h]

/-- Concrete instantiation of `C6_metadata_recomputed_every_call` on the
README `User` model starting from allocation counter 0. -/
theorem C6_metadata_recomputed_every_call_witness :
    (GetTableInfoAlloc userModel 0).1.map Prod.snd = GetTableInfo userModel ∧
    (GetTableInfoAlloc userModel 0).2 = 1 ∧
    (GetTableInfoAlloc userModel 1).1.map Prod.fst = some 1 := by
  have h := C6_metadata_recomputed_every_call userModel 0
  have hs : (GetTableInfo userModel).isSome = true := rfl
  have h2 := h.2.2 hs
  refine ⟨h.1, h2.1, ?_⟩
  have := h2.2.2
  rwa [h2.1] at this

/-! ## Migration manager (`MigrationManager.Rollback`) -/

/-- One registered migration: its version string and the error its `Down`
action returns (`none` = the reverse action succeeds). -/
structure Migration where
  version : String
  downErr : Option String

/-- The linear scan of `mm.migrations` for a version (first match wins). -/
def findMigration (migs : List Migration) (v : String) : Option Migration :=
  migs.find? (fun m => m.version == v)

/-- Go's `<` on strings (byte-wise lexicographic; character-wise here, which
coincides on ASCII version strings), as an executable comparison. -/
def strLtB : List Char → List Char → Bool
  | [], [] => false
  | [], _ :: _ => true
  | _ :: _, [] => false
  | a :: as, b :: bs =>
    if a.val < b.val then true
    else if b.val < a.val then false
    else strLtB as bs

/-- Descending insertion used by `sort.Sort(sort.Reverse(sort.StringSlice))`:
lexicographically larger versions come first. -/
def insertDesc (v : String) : List String → List String
  | [] => [v]
  | w :: ws => if strLtB w.data v.data then v :: w :: ws else w :: insertDesc v ws

/-- Sort version strings in descending lexicographic order. -/
def sortDesc (l : List String) : List String := l.foldr insertDesc []

/-- Mutable state threaded through a rollback run: the rows of the
`migrations` bookkeeping table and the log of reverse actions executed. -/
structure MigState where
  executed : List String
  downsRun : List String

/-- The rollback loop: for each selected version find its migration (an
unregistered version is an explicit error), run `Down` (a failure is an
explicit error), then delete the version's bookkeeping record. -/
def rollbackLoop (migs : List Migration) : List String → MigState → MigState × Option String
  | [], st => (st, none)
  | v :: rest, st =>
    match findMigration migs v with
    | none => (st, some ("找不到迁移: " ++ v))
    | some m =>
      match m.downErr with
      | some e => (st, some ("回滚迁移 " ++ v ++ " 失败: " ++ e))
      | none =>
        rollbackLoop migs rest ⟨st.executed.filter (fun x => x != v), st.downsRun ++ [v]⟩

/-- The versions `Rollback(steps)` selects: the applied versions in
descending order, clamped to at most `steps` (the Go clamp
`if steps > len(versions)` is the `take`). -/
def rollbackSelected (steps : Nat) (executed : List String) : List String :=
  (sortDesc executed).take (min steps (sortDesc executed).length)

/-- `MigrationManager.Rollback`: read the applied versions, sort them
descending, clamp the step count, and run the rollback loop over the `n`
most recent versions. -/
def Rollback (migs : List Migration) (steps : Nat) (executed : List String) :
    MigState × Option String :=
  rollbackLoop migs (rollbackSelected steps executed) ⟨executed, []⟩

theorem filter_filter_not_contains (l : List String) (v : String) (vs : List String) :
    (l.filter (fun x => x != v)).filter (fun x => !vs.contains x) =
      l.filter (fun x => !(v :: vs).contains x) := by
  rw [List.filter_filter]
  apply List.filter_congr
  intro x _
  by_cases hxe : x = v
  · subst hxe; simp
  · simp [hxe, bne]

theorem rollbackLoop_all_registered (migs : List Migration) (vs : List String)
    (st : MigState)
    (h : ∀ v ∈ vs, ∃ m, findMigration migs v = some m ∧ m.downErr = none) :
    rollbackLoop migs vs st =
      (⟨st.executed.filter (fun x => !vs.contains x), st.downsRun ++ vs⟩, none) := by
  induction vs generalizing st with
  | nil =>
    simp [rollbackLoop]
  | cons v rest ih =>
    obtain ⟨m, hm, hd⟩ := h v (by simp)
    have hrest := ih ⟨st.executed.filter (fun x => x != v), st.downsRun ++ [v]⟩
      (fun x hx => h x (by simp [hx]))
    simp only [rollbackLoop, hm, hd]
    rw [hrest]
    rw [filter_filter_not_contains]
    simp [List.append_assoc]

theorem rollbackLoop_missing (migs : List Migration) (vs : List String) (st : MigState)
    (hok : ∀ v ∈ vs, findMigration migs v = none ∨
        ∃ m, findMigration migs v = some m ∧ m.downErr = none)
    (hmiss : ∃ v ∈ vs, findMigration migs v = none) :
    (rollbackLoop migs vs st).2.isSome = true := by
  induction vs generalizing st with
  | nil => simp at hmiss
  | cons v rest ih =>
    rcases hok v (by simp) with hn | ⟨m, hm, hd⟩
    · simp [rollbackLoop, hn]
    · obtain ⟨u, hu, hun⟩ := hmiss
      have hurest : u ∈ rest := by
        rcases List.mem_cons.1 hu with rfl | h'
        · rw [hm] at hun
          exact absurd hun (by simp)
        · exact h'
      simp only [rollbackLoop, hm, hd]
      exact ih ⟨st.executed.filter (fun x => x != v), st.downsRun ++ [v]⟩
        (fun x hx => hok x (by simp [hx])) ⟨u, hurest, hun⟩

/-- C7: `Rollback(n)` selects the `n` most recent applied versions
(descending lexicographic sort, clamped to the number of applied versions);
when every selected version has a registered migration whose reverse action
succeeds, it runs those reverse actions in most-recent-first order and
removes exactly their bookkeeping records; it returns an explicit error
whenever a selected version has no registered migration; and in the
concrete scenario — V1 and V2 applied, both registered — `Rollback(1)` runs
only V2's reverse action and removes only V2's record, leaving V1
applied. -/
theorem C7_rollback_semantics (migs : List Migration) (steps : Nat)
    (executed : List String) :
    ((∀ v ∈ rollbackSelected steps executed,
        ∃ m, findMigration migs v = some m ∧ m.downErr = none) →
      Rollback migs steps executed =
        (⟨executed.filter (fun x => !(rollbackSelected steps executed).contains x),
          rollbackSelected steps executed⟩, none)) ∧
    ((∀ v ∈ rollbackSelected steps executed,
        findMigration migs v = none ∨
          ∃ m, findMigration migs v = some m ∧ m.downErr = none) →
      (∃ v ∈ rollbackSelected steps executed, findMigration migs v = none) →
      (Rollback migs steps executed).2.isSome = true) ∧
    Rollback [⟨"V1", none⟩, ⟨"V2", none⟩] 1 ["V1", "V2"] =
      (⟨["V1"], ["V2"]⟩, none) := by
  refine ⟨fun h => ?_, fun hok hmiss => ?_, ?_⟩
  · have := rollbackLoop_all_registered migs (rollbackSelected steps executed)
      ⟨executed, []⟩ h
    simpa [Rollback] using this
  · exact rollbackLoop_missing migs (rollbackSelected steps executed)
      ⟨executed, []⟩ hok hmiss
  · rfl

/-- Concrete instantiation of `C7_rollback_semantics`: the V1/V2 scenario
result, and the explicit error when the selected version V2 has no
registered migration object. -/
theorem C7_rollback_semantics_witness :
    Rollback [⟨"V1", none⟩, ⟨"V2", none⟩] 1 ["V1", "V2"] =
      (⟨["V1"], ["V2"]⟩, none) ∧
    (Rollback [⟨"V1", none⟩] 1 ["V1", "V2"]).2.isSome = true := by
  refine ⟨(C7_rollback_semantics [⟨"V1", none⟩, ⟨"V2", none⟩] 1 ["V1", "V2"]).2.2, ?_⟩
  refine (C7_rollback_semantics [⟨"V1", none⟩] 1 ["V1", "V2"]).2.1 ?_ ?_
  · intro v hv
    rw [show rollbackSelected 1 ["V1", "V2"] = ["V2"] from rfl,
      List.mem_singleton] at hv
    subst hv
    left
    rfl
  · refine ⟨"V2", ?_, rfl⟩
    rw [show rollbackSelected 1 ["V1", "V2"] = ["V2"] from rfl]
    simp

end OrmSpec
